import Mathlib

/-!
# PRESTO: parallel TPFA solver, row assembly

A shallow embedding of `presto/tpfa_solver/parallel_tpfa_solver.cpp`.

* `double` values are embedded in exact arithmetic (no rounding, no overflow).
  Values read from the mesh, and sums and products of them, are rationals. A
  value computed with a division is a `Double`: a rational, or `nonfinite` when a
  divisor was zero. `nonfinite` stands for the infinity or NaN that the C++
  program produces there; every later operation of the program on such a
  value yields an infinity or a NaN again, so `nonfinite` is absorbing.
* `int` values (global ids, element counts) are embedded as unbounded
  integers: ids and counts are taken to fit the machine type.
* Every MOAB call whose status is checked by `MB_CHK_ERR` is a lookup that
  may fail (`none`); a failed lookup aborts the run, as the macro returns
  from `main`.
* The `PERMEABILITY` buffers are declared `double[9]` and handed to
  `get_equivalent_perm`, which takes one `double` each; the embedding keeps
  the one scalar per element that the formula consumes.
* The matrix `k_matrix` is embedded as the sequence of the
  `InsertGlobalValues` calls made on it.
-/

namespace Presto

/-! ## The program -/

/-- Entity handles of the mesh database. -/
abbrev EntityHandle := Nat

/-- Model of `moab::Range`: the handles it holds, in iteration order. -/
abbrev Range := List EntityHandle

/-- Centroid coordinates, a `double[3]`. -/
abbrev Centroid := Fin 3 → ℚ

/-- A computed `double` in exact arithmetic: the rational `fin q`, or `nonfinite`
(no rational value: the result of a division by zero, an infinity or NaN in
C++). -/
inductive Double where
  | fin (q : ℚ)
  | nonfinite
deriving DecidableEq

/-- Sum of two doubles. -/
def Double.add : Double → Double → Double
  | .fin a, .fin b => .fin (a + b)
  | _, _ => .nonfinite

/-- Product of two doubles. -/
def Double.mul : Double → Double → Double
  | .fin a, .fin b => .fin (a * b)
  | _, _ => .nonfinite

/-- Negation of a double. -/
def Double.neg : Double → Double
  | .fin a => .fin (-a)
  | .nonfinite => .nonfinite

/-- Quotient of a double by a rational divisor: no value when the divisor is
zero. Every divisor in the program is a sum or product of mesh values. -/
def Double.div : Double → ℚ → Double
  | .fin a, b => if b = 0 then .nonfinite else .fin (a / b)
  | .nonfinite, _ => .nonfinite

instance : Add Double := ⟨Double.add⟩

instance : Zero Double := ⟨Double.fin 0⟩

instance : Neg Double := ⟨Double.neg⟩

instance : Mul Double := ⟨Double.mul⟩

instance : HDiv Double ℚ Double := ⟨Double.div⟩

/-- Source lines 41-43: `(2*k1*k2)/(k1+k2)`. -/
def get_equivalent_perm (k1 k2 : ℚ) : Double :=
  Double.fin (2 * k1 * k2) / (k1 + k2)

/-- Source lines 45-47:
`pow(c1[0] + c2[0], 2) + pow(c1[1] + c2[1], 2) + pow(c1[2] + c2[2], 2)`. -/
def get_centroid_dist (c1 c2 : Centroid) : ℚ :=
  (c1 0 + c2 0) ^ 2 + (c1 1 + c2 1) ^ 2 + (c1 2 + c2 2) ^ 2

/-- Model of `std::accumulate(first, last, init)`: a left fold with `+`. -/
def accumulate (xs : List Double) (init : Double) : Double :=
  xs.foldl (fun acc x => acc + x) init

/-- Source lines 57-65: the input mesh file name that `load_file` is given.
`argv` holds all `argc` entries, the program name included. -/
def input_file (argv : List String) : String :=
  if h : argv.length > 2 then argv[1] else "part_mesh.h5m"

/-- The part of the mesh database (`mb`, `topo_util`) that the assembly loop
reads. Each field is one checked MOAB call; `none` is a failing status. -/
structure Interface where
  /-- Result of `get_bridge_adjacencies(h, 2, 3, _)` for an empty target range. -/
  get_bridge_adjacencies : EntityHandle → Option Range
  /-- Value of `tag_get_data(centroid_tag, h, 1, _)`. -/
  centroid_tag : EntityHandle → Option Centroid
  /-- Value of `tag_get_data(perm_tag, h, 1, _)`. -/
  perm_tag : EntityHandle → Option ℚ
  /-- Value of `tag_get_data(dirichlet_tag, h, 1, _)`. -/
  dirichlet_tag : EntityHandle → Option ℚ
  /-- Value of `tag_get_data(global_id_tag, h, 1, _)`. -/
  global_id_tag : EntityHandle → Option Int

/-- One call `k_matrix.InsertGlobalValues(row_id, n, values, indexes)`. -/
structure Row where
  row_id : Int
  row_values : List Double
  row_indexes : List Int
deriving DecidableEq

/-- The variables declared at source lines 140-145, together with the matrix
under construction (the sequence of rows inserted so far). The variables that
hold a quotient or a sum of quotients (`row_values`, `diag_coef`, `equiv_perm`)
are of type `Double`; the others only ever hold mesh values or
`get_centroid_dist` of mesh values, and are rationals. -/
structure LoopState where
  adjacencies : Range
  row_values : List Double
  row_indexes : List Int
  e1_centroid : Centroid
  e2_centroid : Centroid
  e1_perm : ℚ
  e2_perm : ℚ
  pressure : ℚ
  diag_coef : Double
  equiv_perm : Double
  centroid_dist : ℚ
  row_id : Int
  k_matrix : List Row

/-- State at loop entry (source lines 137-145). The four buffers that the
program leaves uninitialised are parameters. -/
def initial_state (e1_centroid e2_centroid : Centroid) (e1_perm e2_perm : ℚ) :
    LoopState where
  adjacencies := []
  row_values := []
  row_indexes := []
  e1_centroid := e1_centroid
  e2_centroid := e2_centroid
  e1_perm := e1_perm
  e2_perm := e2_perm
  pressure := 0
  diag_coef := Double.fin 0
  equiv_perm := Double.fin 0
  centroid_dist := 0
  row_id := -1
  k_matrix := []

/-- Model of `Range::merge`, by which `get_bridge_adjacencies` adds its result
to the range it is handed: the handles of `r`, then those of `new_ents` not
already present. -/
def Range.merge (r new_ents : Range) : Range :=
  r ++ new_ents.filter (fun h => h ∉ r)

/-- Source lines 153-161: one iteration of the neighbour loop. -/
def inner_body (mb : Interface) (s : LoopState) (itt : EntityHandle) :
    Option LoopState :=
  match mb.centroid_tag itt with
  | none => none
  | some c2 =>
    match mb.perm_tag itt with
    | none => none
    | some k2 =>
      match mb.global_id_tag itt with
      | none => none
      | some gid =>
        let equiv_perm := get_equivalent_perm s.e1_perm k2
        let centroid_dist := get_centroid_dist s.e1_centroid c2
        some { s with
          e2_centroid := c2
          e2_perm := k2
          row_id := gid
          equiv_perm := equiv_perm
          centroid_dist := centroid_dist
          row_values := s.row_values ++ [-equiv_perm / centroid_dist]
          row_indexes := s.row_indexes ++ [gid] }

/-- Source line 152: the neighbour loop over a range. -/
def inner_loop (mb : Interface) : List EntityHandle → LoopState → Option LoopState
  | [], s => some s
  | itt :: rest, s =>
    match inner_body mb s itt with
    | none => none
    | some s1 => inner_loop mb rest s1

/-- Source lines 151-167: the branch on the boundary value. -/
def branch (mb : Interface) (s : LoopState) : Option LoopState :=
  if s.pressure ≠ 0 then
    match inner_loop mb s.adjacencies s with
    | none => none
    | some s1 =>
      some { s1 with diag_coef := Double.fin (-1) * accumulate s1.row_values (Double.fin 0) }
  else
    some { s with diag_coef := Double.fin 1 }

/-- Source lines 147-177: one iteration of the loop over the owned elements. -/
def loop_body (mb : Interface) (s : LoopState) (it : EntityHandle) :
    Option LoopState :=
  match mb.get_bridge_adjacencies it with
  | none => none
  | some adj =>
    match mb.centroid_tag it with
    | none => none
    | some c1 =>
      match mb.perm_tag it with
      | none => none
      | some k1 =>
        match mb.dirichlet_tag it with
        | none => none
        | some p =>
          match branch mb { s with
              adjacencies := Range.merge s.adjacencies adj
              e1_centroid := c1
              e1_perm := k1
              pressure := p } with
          | none => none
          | some s1 =>
            match mb.global_id_tag it with
            | none => none
            | some gid =>
              let values := s1.row_values ++ [s1.diag_coef]
              let indexes := s1.row_indexes ++ [gid]
              some { s1 with
                row_id := gid
                k_matrix := s1.k_matrix ++ [⟨gid, values, indexes⟩]
                row_values := []
                row_indexes := []
                adjacencies := [] }

/-- Source line 146: the loop over the owned elements `my_elems`. -/
def assembly_loop (mb : Interface) : List EntityHandle → LoopState → Option LoopState
  | [], s => some s
  | it :: rest, s =>
    match loop_body mb s it with
    | none => none
    | some s1 => assembly_loop mb rest s1

/-- The rows inserted by a run of the assembly loop over `my_elems`, from the
state at loop entry; `none` when the run aborts on a failed read. The
uninitialised buffers are taken as zero here; the rows do not depend on them
(`assembly_loop_k_matrix`). -/
def emitted_rows (mb : Interface) (my_elems : List EntityHandle) : Option (List Row) :=
  (assembly_loop mb my_elems (initial_state 0 0 0 0)).map (fun s => s.k_matrix)

/-- One process of the SPMD run: its view of the mesh database and the
elements it owns (`my_elems`, source lines 100-101). -/
structure Process where
  mb : Interface
  my_elems : List EntityHandle

/-- Source line 109: `num_local_elems = my_elems.size()`. -/
def num_local_elems (p : Process) : Int :=
  (p.my_elems.length : Int)

/-- Source line 110: `MPI_Allreduce(.., MPI_SUM, ..)` of `num_local_elems`. -/
def num_global_elems (procs : List Process) : Int :=
  (procs.map num_local_elems).sum

/-- Source line 123: the global ids of the owned elements, the array `gids`
that defines the row map (source line 136), for all processes in rank order. -/
def owned_gids : List Process → List (Option Int)
  | [] => []
  | p :: ps => p.my_elems.map p.mb.global_id_tag ++ owned_gids ps

/-- The rows emitted by all processes, in rank order; `none` when the run of
one process aborts. -/
def all_emitted : List Process → Option (List Row)
  | [] => some []
  | p :: ps =>
    match emitted_rows p.mb p.my_elems with
    | none => none
    | some rs =>
      match all_emitted ps with
      | none => none
      | some rest => some (rs ++ rest)

/-! ## The row of one element, as a function of attributes

The spec's row assembler (section 4.4), written as a function of the element's
own attributes and of its neighbours' attributes, with no loop state. -/

/-- The attributes of a neighbour that the assembler reads. -/
structure Neighbour where
  global_id : Int
  centroid : Centroid
  permeability : ℚ

/-- Spec 4.4, step 2: `coef = -transmissibility(e,n) / distance(e,n)`. -/
def flux_coef (c1 : Centroid) (k1 : ℚ) (n : Neighbour) : Double :=
  -(get_equivalent_perm k1 n.permeability) / get_centroid_dist c1 n.centroid

/-- The rational value of `flux_coef` when neither divisor is zero. -/
def flux_rational (c1 : Centroid) (k1 : ℚ) (n : Neighbour) : ℚ :=
  -(2 * k1 * n.permeability / (k1 + n.permeability)) / get_centroid_dist c1 n.centroid

/-- Spec 4.4, steps 2-3: the row `(e.global_id, columns, coefficients)` of an
element with global id `gid`, centroid `c1`, permeability `k1`, boundary value
`p` and neighbours `ns`. -/
def element_row (gid : Int) (c1 : Centroid) (k1 p : ℚ) (ns : List Neighbour) : Row :=
  if p ≠ 0 then
    { row_id := gid
      row_values := ns.map (flux_coef c1 k1) ++ [-((ns.map (flux_coef c1 k1)).sum)]
      row_indexes := ns.map (fun n => n.global_id) ++ [gid] }
  else
    { row_id := gid, row_values := [Double.fin 1], row_indexes := [gid] }

/-- The three attribute reads made for a neighbour (source lines 153-155). -/
def read_neighbour (mb : Interface) (itt : EntityHandle) : Option Neighbour :=
  match mb.centroid_tag itt with
  | none => none
  | some c2 =>
    match mb.perm_tag itt with
    | none => none
    | some k2 =>
      match mb.global_id_tag itt with
      | none => none
      | some gid => some { global_id := gid, centroid := c2, permeability := k2 }

/-- The attribute reads for a whole adjacency list. -/
def read_neighbours (mb : Interface) : List EntityHandle → Option (List Neighbour)
  | [] => some []
  | itt :: rest =>
    match read_neighbour mb itt with
    | none => none
    | some n =>
      match read_neighbours mb rest with
      | none => none
      | some ns => some (n :: ns)

/-- The row of the owned element `it`: its attributes and, when its boundary
value is nonzero, those of its neighbours are read from the mesh, and
`element_row` is applied. Undefined when one of these reads fails. -/
def row_of (mb : Interface) (it : EntityHandle) : Option Row :=
  match mb.get_bridge_adjacencies it with
  | none => none
  | some adj =>
    match mb.centroid_tag it with
    | none => none
    | some c1 =>
      match mb.perm_tag it with
      | none => none
      | some k1 =>
        match mb.dirichlet_tag it with
        | none => none
        | some p =>
          match (if p ≠ 0 then read_neighbours mb adj else some []) with
          | none => none
          | some ns =>
            match mb.global_id_tag it with
            | none => none
            | some gid => some (element_row gid c1 k1 p ns)

/-- The rows of a list of owned elements, each computed on its own. -/
def all_rows (mb : Interface) : List EntityHandle → Option (List Row)
  | [] => some []
  | it :: rest =>
    match row_of mb it with
    | none => none
    | some r =>
      match all_rows mb rest with
      | none => none
      | some rs => some (r :: rs)

/-! ## Auxiliary definitions -/

/-- The effect of one neighbour-loop iteration on the state, once the three
reads have succeeded. -/
def push_neighbour (s : LoopState) (n : Neighbour) : LoopState :=
  { s with
    e2_centroid := n.centroid
    e2_perm := n.permeability
    row_id := n.global_id
    equiv_perm := get_equivalent_perm s.e1_perm n.permeability
    centroid_dist := get_centroid_dist s.e1_centroid n.centroid
    row_values := s.row_values ++
      [-(get_equivalent_perm s.e1_perm n.permeability) /
        get_centroid_dist s.e1_centroid n.centroid]
    row_indexes := s.row_indexes ++ [n.global_id] }

/-- The scratch buffers are empty. -/
def BuffersEmpty (s : LoopState) : Prop :=
  s.row_values = [] ∧ s.row_indexes = [] ∧ s.adjacencies = []

/-- The coefficients that row `r` holds at column `col`, in insertion order. -/
def entries_at (r : Row) (col : Int) : List Double :=
  ((r.row_indexes.zip r.row_values).filter (fun e => decide (e.1 = col))).map (fun e => e.2)

/-- Squared Euclidean separation of two centroids (the spec's notion of two
centroids being "farther apart"). -/
def euclidean_sq (c1 c2 : Centroid) : ℚ :=
  (c1 0 - c2 0) ^ 2 + (c1 1 - c2 1) ^ 2 + (c1 2 - c2 2) ^ 2

/-- The three reads made for a neighbour all succeed. -/
def neighbour_readable (mb : Interface) (n : EntityHandle) : Bool :=
  (mb.centroid_tag n).isSome && (mb.perm_tag n).isSome && (mb.global_id_tag n).isSome

/-- Every read that one iteration of the loop makes for the owned element `it`
succeeds: the five reads for `it` itself and, when its boundary value is
nonzero, the three reads for each of its neighbours. -/
def readable (mb : Interface) (it : EntityHandle) : Bool :=
  match mb.get_bridge_adjacencies it, mb.dirichlet_tag it with
  | some adj, some p =>
    (mb.centroid_tag it).isSome && (mb.perm_tag it).isSome &&
      (mb.global_id_tag it).isSome && (decide (p = 0) || adj.all (neighbour_readable mb))
  | _, _ => false

/-! ## Concrete meshes -/

/-- Scenario A: cell 0 (handle 1; boundary value 5, permeability 2, centroid
`(0,0,0)`) and cell 1 (handle 2; boundary value 0, permeability 4, centroid
`(1,0,0)`), adjacent to each other. -/
def scenario_A : Interface where
  get_bridge_adjacencies := fun h =>
    if h = 1 then some [2] else if h = 2 then some [1] else none
  centroid_tag := fun h =>
    if h = 1 then some ![0, 0, 0] else if h = 2 then some ![1, 0, 0] else none
  perm_tag := fun h => if h = 1 then some 2 else if h = 2 then some 4 else none
  dirichlet_tag := fun h => if h = 1 then some 5 else if h = 2 then some 0 else none
  global_id_tag := fun h => if h = 1 then some 0 else if h = 2 then some 1 else none

/-- The rows the spec expects in Scenario A: row 0 with the off-diagonal
`-equivalent_permeability(2,4)/distance((0,0,0),(1,0,0))` at column 1 and its
negation on the diagonal; row 1 with the single entry `(1, 1)`. -/
def scenario_A_expected : List Row :=
  [{ row_id := 0
     row_values :=
       [-(get_equivalent_perm 2 4) / get_centroid_dist ![0, 0, 0] ![1, 0, 0],
        -(-(get_equivalent_perm 2 4) / get_centroid_dist ![0, 0, 0] ![1, 0, 0])]
     row_indexes := [1, 0] },
   { row_id := 1, row_values := [Double.fin 1], row_indexes := [1] }]

/-- The state of the Scenario A run after the first iteration. -/
def scenario_A_after_first : LoopState where
  adjacencies := []
  row_values := []
  row_indexes := []
  e1_centroid := ![0, 0, 0]
  e2_centroid := ![1, 0, 0]
  e1_perm := 2
  e2_perm := 4
  pressure := 5
  diag_coef := Double.fin (8/3)
  equiv_perm := Double.fin (8/3)
  centroid_dist := 1
  row_id := 0
  k_matrix :=
    [{ row_id := 0, row_values := [Double.fin (-8/3), Double.fin (8/3)], row_indexes := [1, 0] }]

/-- Scenario C: the two cells of Scenario A and a third cell (handle 3, global
id 2, boundary value 3, permeability 4, centroid `(2,0,0)`) adjacent to cell 1. -/
def scenario_C : Interface where
  get_bridge_adjacencies := fun h =>
    if h = 1 then some [2] else if h = 2 then some [1, 3] else
      if h = 3 then some [2] else none
  centroid_tag := fun h =>
    if h = 1 then some ![0, 0, 0] else if h = 2 then some ![1, 0, 0] else
      if h = 3 then some ![2, 0, 0] else none
  perm_tag := fun h =>
    if h = 1 then some 2 else if h = 2 then some 4 else if h = 3 then some 4 else none
  dirichlet_tag := fun h =>
    if h = 1 then some 5 else if h = 2 then some 0 else if h = 3 then some 3 else none
  global_id_tag := fun h =>
    if h = 1 then some 0 else if h = 2 then some 1 else if h = 3 then some 2 else none

/-- Scenario C: three processes, one owned cell each. -/
def scenario_C_procs : List Process :=
  [{ mb := scenario_C, my_elems := [1] }, { mb := scenario_C, my_elems := [2] },
   { mb := scenario_C, my_elems := [3] }]

/-- The rows of Scenario C. -/
def scenario_C_expected : List Row :=
  [{ row_id := 0, row_values := [Double.fin (-8/3), Double.fin (8/3)], row_indexes := [1, 0] },
   { row_id := 1, row_values := [Double.fin 1], row_indexes := [1] },
   { row_id := 2, row_values := [Double.fin (-4/9), Double.fin (4/9)], row_indexes := [1, 2] }]

/-- Two mutually adjacent cells that both have a nonzero boundary value:
Scenario A with the boundary value of cell 1 set to 7. -/
def two_flux_cells : Interface where
  get_bridge_adjacencies := scenario_A.get_bridge_adjacencies
  centroid_tag := scenario_A.centroid_tag
  perm_tag := scenario_A.perm_tag
  dirichlet_tag := fun h => if h = 1 then some 5 else if h = 2 then some 7 else none
  global_id_tag := scenario_A.global_id_tag

/-- The rows of `two_flux_cells`. -/
def two_flux_cells_expected : List Row :=
  [{ row_id := 0, row_values := [Double.fin (-8/3), Double.fin (8/3)], row_indexes := [1, 0] },
   { row_id := 1, row_values := [Double.fin (-8/3), Double.fin (8/3)], row_indexes := [0, 1] }]

/-- Two adjacent impermeable cells: Scenario A with both permeabilities 0 and
the boundary value of cell 1 set to 7. -/
def impermeable_cells : Interface where
  get_bridge_adjacencies := scenario_A.get_bridge_adjacencies
  centroid_tag := scenario_A.centroid_tag
  perm_tag := fun h => if h = 1 then some 0 else if h = 2 then some 0 else none
  dirichlet_tag := fun h => if h = 1 then some 5 else if h = 2 then some 7 else none
  global_id_tag := scenario_A.global_id_tag

/-- Two adjacent cells mirrored about the plane `x = 0`: Scenario A with the
centroids `(-1/2,0,0)` and `(1/2,0,0)`. -/
def mirrored_cells : Interface where
  get_bridge_adjacencies := scenario_A.get_bridge_adjacencies
  centroid_tag := fun h =>
    if h = 1 then some ![-1/2, 0, 0] else if h = 2 then some ![1/2, 0, 0] else none
  perm_tag := scenario_A.perm_tag
  dirichlet_tag := scenario_A.dirichlet_tag
  global_id_tag := scenario_A.global_id_tag

/-- The rows of `impermeable_cells` and of the first cell of `mirrored_cells`
hold no value where the quotient has a zero divisor. -/
def nonfinite_row : Row :=
  { row_id := 0, row_values := [Double.nonfinite, Double.nonfinite], row_indexes := [1, 0] }

/-! ## Arithmetic of doubles -/

@[simp] theorem Double.fin_add_fin (a b : ℚ) :
    Double.fin a + Double.fin b = Double.fin (a + b) := rfl

@[simp] theorem Double.nonfinite_add (x : Double) : Double.nonfinite + x = Double.nonfinite := rfl

@[simp] theorem Double.add_nonfinite (x : Double) : x + Double.nonfinite = Double.nonfinite := by
  cases x <;> rfl

@[simp] theorem Double.neg_fin (a : ℚ) : -Double.fin a = Double.fin (-a) := rfl

@[simp] theorem Double.neg_nonfinite : -Double.nonfinite = Double.nonfinite := rfl

@[simp] theorem Double.fin_mul_fin (a b : ℚ) :
    Double.fin a * Double.fin b = Double.fin (a * b) := rfl

@[simp] theorem Double.mul_nonfinite (x : Double) : x * Double.nonfinite = Double.nonfinite := by
  cases x <;> rfl

@[simp] theorem Double.nonfinite_mul (x : Double) : Double.nonfinite * x = Double.nonfinite := rfl

@[simp] theorem Double.fin_div (a b : ℚ) :
    Double.fin a / b = if b = 0 then Double.nonfinite else Double.fin (a / b) := rfl

@[simp] theorem Double.nonfinite_div (b : ℚ) : Double.nonfinite / b = Double.nonfinite := rfl

@[simp] theorem Double.zero_eq : (0 : Double) = Double.fin 0 := rfl

@[simp] theorem Double.add_fin_zero (x : Double) : x + Double.fin 0 = x := by
  cases x <;> simp

@[simp] theorem Double.fin_zero_add (x : Double) : Double.fin 0 + x = x := by
  cases x <;> simp

@[simp] theorem Double.neg_neg (x : Double) : -(-x) = x := by
  cases x <;> simp

theorem Double.add_assoc (x y z : Double) : x + y + z = x + (y + z) := by
  cases x <;> cases y <;> cases z <;> simp [Rat.add_assoc]

theorem Double.neg_one_mul (x : Double) : Double.fin (-1) * x = -x := by
  cases x <;> simp

theorem Double.sum_map_fin (qs : List ℚ) :
    (qs.map Double.fin).sum = Double.fin qs.sum := by
  induction qs with
  | nil => rfl
  | cons q qs ih => simp [ih]

theorem get_equivalent_perm_comm (a b : ℚ) :
    get_equivalent_perm a b = get_equivalent_perm b a := by
  unfold get_equivalent_perm
  rw [mul_right_comm, add_comm]

/-! ## The loop and the per-element rows -/

theorem accumulate_eq_add_sum (xs : List Double) (init : Double) :
    accumulate xs init = init + xs.sum := by
  unfold accumulate
  induction xs generalizing init with
  | nil => simp
  | cons x xs ih => simp [List.foldl_cons, ih, Double.add_assoc]

theorem accumulate_zero (xs : List Double) :
    Double.fin (-1) * accumulate xs (Double.fin 0) = -xs.sum := by
  rw [accumulate_eq_add_sum, Double.neg_one_mul, Double.fin_zero_add]

theorem merge_nil (adj : Range) : Range.merge [] adj = adj := by
  simp [Range.merge]

theorem inner_body_eq (mb : Interface) (s : LoopState) (itt : EntityHandle) :
    inner_body mb s itt = (read_neighbour mb itt).map (push_neighbour s) := by
  unfold inner_body read_neighbour
  cases mb.centroid_tag itt <;> cases mb.perm_tag itt <;>
    cases mb.global_id_tag itt <;> simp [push_neighbour]

theorem inner_loop_eq (mb : Interface) (adj : List EntityHandle) (s : LoopState) :
    inner_loop mb adj s = (read_neighbours mb adj).map (fun ns => ns.foldl push_neighbour s) := by
  induction adj generalizing s with
  | nil => simp [inner_loop, read_neighbours]
  | cons itt rest ih =>
    simp only [inner_loop, read_neighbours, inner_body_eq]
    cases read_neighbour mb itt with
    | none => simp
    | some n =>
      simp only [Option.map_some', ih]
      cases read_neighbours mb rest <;> simp

theorem foldl_push_neighbour (ns : List Neighbour) (s : LoopState) :
    (ns.foldl push_neighbour s).row_values
        = s.row_values ++ ns.map (flux_coef s.e1_centroid s.e1_perm) ∧
    (ns.foldl push_neighbour s).row_indexes
        = s.row_indexes ++ ns.map (fun n => n.global_id) ∧
    (ns.foldl push_neighbour s).k_matrix = s.k_matrix ∧
    (ns.foldl push_neighbour s).e1_centroid = s.e1_centroid ∧
    (ns.foldl push_neighbour s).e1_perm = s.e1_perm := by
  induction ns generalizing s with
  | nil => simp
  | cons n ns ih =>
    simp only [List.foldl_cons]
    obtain ⟨h1, h2, h3, h4, h5⟩ := ih (push_neighbour s n)
    rw [h1, h2, h3, h4, h5]
    simp [push_neighbour, flux_coef]

theorem initial_state_buffers_empty (c1 c2 : Centroid) (k1 k2 : ℚ) :
    BuffersEmpty (initial_state c1 c2 k1 k2) :=
  ⟨rfl, rfl, rfl⟩

theorem loop_body_buffers_empty (mb : Interface) (s s1 : LoopState) (it : EntityHandle)
    (h : loop_body mb s it = some s1) : BuffersEmpty s1 := by
  unfold loop_body at h
  split at h
  · simp at h
  · split at h
    · simp at h
    · split at h
      · simp at h
      · split at h
        · simp at h
        · split at h
          · simp at h
          · split at h
            · simp at h
            · simp only [Option.some.injEq] at h
              subst h
              exact ⟨rfl, rfl, rfl⟩

theorem loop_body_k_matrix (mb : Interface) (s : LoopState) (it : EntityHandle)
    (hs : BuffersEmpty s) :
    (loop_body mb s it).map (fun s1 => s1.k_matrix)
      = (row_of mb it).map (fun r => s.k_matrix ++ [r]) := by
  obtain ⟨hv, hi, ha⟩ := hs
  unfold loop_body row_of
  cases mb.get_bridge_adjacencies it with
  | none => rfl
  | some adj =>
  cases mb.centroid_tag it with
  | none => rfl
  | some c1 =>
  cases mb.perm_tag it with
  | none => rfl
  | some k1 =>
  cases mb.dirichlet_tag it with
  | none => rfl
  | some p =>
  simp only [branch, ha, merge_nil]
  by_cases hp : p = 0
  · subst hp
    cases mb.global_id_tag it <;> simp [element_row, hv, hi]
  · simp only [ne_eq, hp, not_false_eq_true, if_true, inner_loop_eq]
    cases read_neighbours mb adj with
    | none => simp
    | some ns =>
      simp only [Option.map_some']
      obtain ⟨h1, h2, h3, -, -⟩ := foldl_push_neighbour ns
        { s with adjacencies := adj, e1_centroid := c1, e1_perm := k1, pressure := p }
      simp only [hv, hi, List.nil_append] at h1 h2 h3
      cases mb.global_id_tag it with
      | none => simp
      | some gid =>
        simp only [Option.map_some', hv, hi, h1, h2, h3,
          accumulate_zero, element_row, ne_eq, hp, not_false_eq_true, if_true]

theorem assembly_loop_buffers_empty (mb : Interface) (my_elems : List EntityHandle)
    (s s1 : LoopState) (hs : BuffersEmpty s) (h : assembly_loop mb my_elems s = some s1) :
    BuffersEmpty s1 := by
  induction my_elems generalizing s with
  | nil =>
    simp only [assembly_loop, Option.some.injEq] at h
    exact h ▸ hs
  | cons it rest ih =>
    simp only [assembly_loop] at h
    cases hb : loop_body mb s it with
    | none => simp [hb] at h
    | some s2 =>
      rw [hb] at h
      exact ih s2 (loop_body_buffers_empty mb s s2 it hb) h

theorem assembly_loop_k_matrix (mb : Interface) (my_elems : List EntityHandle)
    (s : LoopState) (hs : BuffersEmpty s) :
    (assembly_loop mb my_elems s).map (fun s1 => s1.k_matrix)
      = (all_rows mb my_elems).map (fun rs => s.k_matrix ++ rs) := by
  induction my_elems generalizing s with
  | nil => simp [assembly_loop, all_rows]
  | cons it rest ih =>
    have hb := loop_body_k_matrix mb s it hs
    simp only [assembly_loop, all_rows]
    cases hl : loop_body mb s it with
    | none =>
      rw [hl] at hb
      cases hr : row_of mb it with
      | none => rfl
      | some r => rw [hr] at hb; simp at hb
    | some s2 =>
      rw [hl] at hb
      cases hr : row_of mb it with
      | none => rw [hr] at hb; simp at hb
      | some r =>
        rw [hr] at hb
        simp only [Option.map_some', Option.some.injEq] at hb
        rw [ih s2 (loop_body_buffers_empty mb s s2 it hl), hb]
        cases all_rows mb rest <;> simp

theorem emitted_rows_eq (mb : Interface) (my_elems : List EntityHandle) :
    emitted_rows mb my_elems = all_rows mb my_elems := by
  unfold emitted_rows
  rw [assembly_loop_k_matrix mb my_elems _ (initial_state_buffers_empty 0 0 0 0)]
  cases all_rows mb my_elems <;> simp [initial_state]

theorem read_neighbour_some (mb : Interface) (itt : EntityHandle) (n : Neighbour)
    (h : read_neighbour mb itt = some n) :
    mb.centroid_tag itt = some n.centroid ∧ mb.perm_tag itt = some n.permeability ∧
      mb.global_id_tag itt = some n.global_id := by
  unfold read_neighbour at h
  cases hc : mb.centroid_tag itt with
  | none => simp [hc] at h
  | some c2 =>
    cases hk : mb.perm_tag itt with
    | none => simp [hc, hk] at h
    | some k2 =>
      cases hg : mb.global_id_tag itt with
      | none => simp [hc, hk, hg] at h
      | some gid =>
        simp only [hc, hk, hg, Option.some.injEq] at h
        subst h
        exact ⟨rfl, rfl, rfl⟩

theorem read_neighbours_map (mb : Interface) (adj : List EntityHandle)
    (ns : List Neighbour) (h : read_neighbours mb adj = some ns) :
    adj.map (read_neighbour mb) = ns.map some := by
  induction adj generalizing ns with
  | nil =>
    simp only [read_neighbours, Option.some.injEq] at h
    subst h
    rfl
  | cons itt rest ih =>
    simp only [read_neighbours] at h
    cases hn : read_neighbour mb itt with
    | none => simp [hn] at h
    | some n =>
      cases hr : read_neighbours mb rest with
      | none => simp [hn, hr] at h
      | some ns1 =>
        simp only [hn, hr, Option.some.injEq] at h
        subst h
        simp [hn, ih ns1 hr]

theorem read_neighbours_length (mb : Interface) (adj : List EntityHandle)
    (ns : List Neighbour) (h : read_neighbours mb adj = some ns) :
    ns.length = adj.length := by
  have := congrArg List.length (read_neighbours_map mb adj ns h)
  simpa using this.symm

theorem read_neighbours_gids (mb : Interface) (adj : List EntityHandle)
    (ns : List Neighbour) (h : read_neighbours mb adj = some ns) :
    adj.map mb.global_id_tag = ns.map (fun n => some n.global_id) := by
  induction adj generalizing ns with
  | nil =>
    simp only [read_neighbours, Option.some.injEq] at h
    subst h
    rfl
  | cons itt rest ih =>
    simp only [read_neighbours] at h
    cases hn : read_neighbour mb itt with
    | none => simp [hn] at h
    | some n =>
      cases hr : read_neighbours mb rest with
      | none => simp [hn, hr] at h
      | some ns1 =>
        simp only [hn, hr, Option.some.injEq] at h
        subst h
        simp [(read_neighbour_some mb itt n hn).2.2, ih ns1 hr]

theorem read_neighbours_centroids (mb : Interface) (adj : List EntityHandle)
    (ns : List Neighbour) (h : read_neighbours mb adj = some ns) :
    adj.map mb.centroid_tag = ns.map (fun n => some n.centroid) := by
  induction adj generalizing ns with
  | nil =>
    simp only [read_neighbours, Option.some.injEq] at h
    subst h
    rfl
  | cons itt rest ih =>
    simp only [read_neighbours] at h
    cases hn : read_neighbour mb itt with
    | none => simp [hn] at h
    | some n =>
      cases hr : read_neighbours mb rest with
      | none => simp [hn, hr] at h
      | some ns1 =>
        simp only [hn, hr, Option.some.injEq] at h
        subst h
        simp [(read_neighbour_some mb itt n hn).1, ih ns1 hr]

theorem read_neighbours_perms (mb : Interface) (adj : List EntityHandle)
    (ns : List Neighbour) (h : read_neighbours mb adj = some ns) :
    adj.map mb.perm_tag = ns.map (fun n => some n.permeability) := by
  induction adj generalizing ns with
  | nil =>
    simp only [read_neighbours, Option.some.injEq] at h
    subst h
    rfl
  | cons itt rest ih =>
    simp only [read_neighbours] at h
    cases hn : read_neighbour mb itt with
    | none => simp [hn] at h
    | some n =>
      cases hr : read_neighbours mb rest with
      | none => simp [hn, hr] at h
      | some ns1 =>
        simp only [hn, hr, Option.some.injEq] at h
        subst h
        simp [(read_neighbour_some mb itt n hn).2.1, ih ns1 hr]

theorem row_of_some (mb : Interface) (it : EntityHandle) (r : Row)
    (h : row_of mb it = some r) :
    ∃ adj c1 k1 p gid ns,
      mb.get_bridge_adjacencies it = some adj ∧ mb.centroid_tag it = some c1 ∧
      mb.perm_tag it = some k1 ∧ mb.dirichlet_tag it = some p ∧
      mb.global_id_tag it = some gid ∧
      (p ≠ 0 → read_neighbours mb adj = some ns) ∧
      r = element_row gid c1 k1 p ns := by
  unfold row_of at h
  cases ha : mb.get_bridge_adjacencies it with
  | none => simp [ha] at h
  | some adj =>
  cases hc : mb.centroid_tag it with
  | none => simp [ha, hc] at h
  | some c1 =>
  cases hk : mb.perm_tag it with
  | none => simp [ha, hc, hk] at h
  | some k1 =>
  cases hp : mb.dirichlet_tag it with
  | none => simp [ha, hc, hk, hp] at h
  | some p =>
  simp only [ha, hc, hk, hp] at h
  cases hn : (if p ≠ 0 then read_neighbours mb adj else some []) with
  | none => simp [hn] at h
  | some ns =>
  cases hg : mb.global_id_tag it with
  | none => simp [hn, hg] at h
  | some gid =>
    simp only [hn, hg, Option.some.injEq] at h
    refine ⟨adj, c1, k1, p, gid, ns, rfl, rfl, rfl, rfl, rfl, ?_, h.symm⟩
    intro hne
    simpa [hne] using hn

theorem all_rows_map (mb : Interface) (l : List EntityHandle) (rows : List Row)
    (h : all_rows mb l = some rows) : l.map (row_of mb) = rows.map some := by
  induction l generalizing rows with
  | nil =>
    simp only [all_rows, Option.some.injEq] at h
    subst h
    rfl
  | cons it rest ih =>
    simp only [all_rows] at h
    cases hr : row_of mb it with
    | none => simp [hr] at h
    | some r =>
      cases ha : all_rows mb rest with
      | none => simp [hr, ha] at h
      | some rs =>
        simp only [hr, ha, Option.some.injEq] at h
        subst h
        simp [hr, ih rs ha]

theorem all_rows_length (mb : Interface) (l : List EntityHandle) (rows : List Row)
    (h : all_rows mb l = some rows) : rows.length = l.length := by
  have := congrArg List.length (all_rows_map mb l rows h)
  simpa using this.symm

theorem all_rows_getElem (mb : Interface) (l : List EntityHandle) (rows : List Row)
    (h : all_rows mb l = some rows) (i : Nat) (hi : i < l.length) :
    ∃ r, rows[i]? = some r ∧ row_of mb l[i] = some r := by
  have hlen := all_rows_length mb l rows h
  have hmap := all_rows_map mb l rows h
  have hi2 : i < rows.length := by omega
  refine ⟨rows[i], List.getElem?_eq_getElem hi2, ?_⟩
  have := congrArg (fun xs => xs[i]?) hmap
  simpa [List.getElem?_map, List.getElem?_eq_getElem hi, List.getElem?_eq_getElem hi2]
    using this

/-- The row emitted for the `i`-th owned element of a run that completed. -/
theorem emitted_rows_getElem (mb : Interface) (my_elems : List EntityHandle)
    (rows : List Row) (h : emitted_rows mb my_elems = some rows) (i : Nat)
    (hi : i < my_elems.length) :
    ∃ r, rows[i]? = some r ∧ row_of mb my_elems[i] = some r :=
  all_rows_getElem mb my_elems rows (emitted_rows_eq mb my_elems ▸ h) i hi

theorem scenario_A_rows : emitted_rows scenario_A [1, 2] = some scenario_A_expected := by
  rw [emitted_rows_eq]
  simp [all_rows, row_of, scenario_A, read_neighbours, read_neighbour, element_row,
    flux_coef, scenario_A_expected]

theorem row_of_row_id (mb : Interface) (it : EntityHandle) (r : Row)
    (h : row_of mb it = some r) : mb.global_id_tag it = some r.row_id := by
  obtain ⟨adj, c1, k1, p, gid, ns, -, -, -, -, hg, -, hrdef⟩ := row_of_some mb it r h
  rw [hg, hrdef]
  unfold element_row
  split <;> rfl

theorem emitted_rows_row_ids (mb : Interface) (my_elems : List EntityHandle)
    (rows : List Row) (h : emitted_rows mb my_elems = some rows) :
    rows.map (fun r => some r.row_id) = my_elems.map mb.global_id_tag := by
  rw [emitted_rows_eq] at h
  induction my_elems generalizing rows with
  | nil =>
    simp only [all_rows, Option.some.injEq] at h
    subst h
    rfl
  | cons it rest ih =>
    simp only [all_rows] at h
    cases hr : row_of mb it with
    | none => simp [hr] at h
    | some r =>
      cases ha : all_rows mb rest with
      | none => simp [hr, ha] at h
      | some rs =>
        simp only [hr, ha, Option.some.injEq] at h
        subst h
        simp [row_of_row_id mb it r hr, ih rs ha]

theorem all_emitted_row_ids (procs : List Process) (rows : List Row)
    (h : all_emitted procs = some rows) :
    rows.map (fun r => some r.row_id) = owned_gids procs := by
  induction procs generalizing rows with
  | nil =>
    simp only [all_emitted, Option.some.injEq] at h
    subst h
    rfl
  | cons p ps ih =>
    simp only [all_emitted] at h
    cases hr : emitted_rows p.mb p.my_elems with
    | none => simp [hr] at h
    | some rs =>
      cases ha : all_emitted ps with
      | none => simp [hr, ha] at h
      | some rest =>
        simp only [hr, ha, Option.some.injEq] at h
        subst h
        simp [owned_gids, emitted_rows_row_ids p.mb p.my_elems rs hr, ih rest ha]

theorem all_emitted_mem (procs : List Process) (rows : List Row)
    (h : all_emitted procs = some rows) (p : Process) (hp : p ∈ procs) :
    ∃ rs, emitted_rows p.mb p.my_elems = some rs := by
  induction procs generalizing rows with
  | nil => simp at hp
  | cons q qs ih =>
    simp only [all_emitted] at h
    cases hr : emitted_rows q.mb q.my_elems with
    | none => simp [hr] at h
    | some rs =>
      cases ha : all_emitted qs with
      | none => simp [hr, ha] at h
      | some rest =>
        rcases List.mem_cons.mp hp with rfl | hmem
        · exact ⟨rs, hr⟩
        · exact ih rest ha hmem

theorem owned_gids_length (procs : List Process) :
    ((owned_gids procs).length : Int) = num_global_elems procs := by
  induction procs with
  | nil => rfl
  | cons p ps ih =>
    simp only [owned_gids, List.length_append, List.length_map, Nat.cast_add, ih,
      num_global_elems, List.map_cons, List.sum_cons, num_local_elems]

theorem scenario_C_rows : all_emitted scenario_C_procs = some scenario_C_expected := by
  simp only [all_emitted, scenario_C_procs, emitted_rows_eq]
  simp [all_rows, row_of, scenario_C, read_neighbours, read_neighbour, element_row,
    flux_coef, scenario_C_expected, get_equivalent_perm, get_centroid_dist]
  norm_num

theorem read_neighbours_congr (mb1 mb2 : Interface) (adj : List EntityHandle)
    (h : ∀ n ∈ adj, mb1.centroid_tag n = mb2.centroid_tag n ∧
      mb1.perm_tag n = mb2.perm_tag n ∧ mb1.global_id_tag n = mb2.global_id_tag n) :
    read_neighbours mb1 adj = read_neighbours mb2 adj := by
  induction adj with
  | nil => rfl
  | cons itt rest ih =>
    obtain ⟨hc, hk, hg⟩ := h itt (List.mem_cons_self itt rest)
    have hrest := ih (fun n hn => h n (List.mem_cons_of_mem itt hn))
    simp only [read_neighbours, read_neighbour, hc, hk, hg, hrest]

theorem row_of_congr (mb1 mb2 : Interface) (it : EntityHandle)
    (hadj : mb1.get_bridge_adjacencies it = mb2.get_bridge_adjacencies it)
    (hc : mb1.centroid_tag it = mb2.centroid_tag it)
    (hk : mb1.perm_tag it = mb2.perm_tag it)
    (hp : mb1.dirichlet_tag it = mb2.dirichlet_tag it)
    (hg : mb1.global_id_tag it = mb2.global_id_tag it)
    (hn : ∀ adj, mb1.get_bridge_adjacencies it = some adj → ∀ n ∈ adj,
      mb1.centroid_tag n = mb2.centroid_tag n ∧ mb1.perm_tag n = mb2.perm_tag n ∧
        mb1.global_id_tag n = mb2.global_id_tag n) :
    row_of mb1 it = row_of mb2 it := by
  unfold row_of
  rw [← hadj, ← hc, ← hk, ← hp, ← hg]
  cases ha : mb1.get_bridge_adjacencies it with
  | none => rfl
  | some adj => simp only [read_neighbours_congr mb1 mb2 adj (hn adj ha)]

theorem assembly_loop_append (mb : Interface) (pre post : List EntityHandle)
    (s : LoopState) :
    assembly_loop mb (pre ++ post) s =
      (assembly_loop mb pre s).bind (assembly_loop mb post) := by
  induction pre generalizing s with
  | nil => rfl
  | cons it rest ih =>
    simp only [List.cons_append, assembly_loop]
    cases loop_body mb s it with
    | none => rfl
    | some s1 => exact ih s1

theorem scenario_A_first_iteration :
    assembly_loop scenario_A [1] (initial_state 0 0 0 0) = some scenario_A_after_first := by
  simp [assembly_loop, loop_body, branch, inner_loop, inner_body, scenario_A,
    Range.merge, accumulate, initial_state, scenario_A_after_first, get_equivalent_perm,
    get_centroid_dist]
  norm_num

theorem scenario_A_rows_swapped :
    emitted_rows scenario_A [2, 1] = some scenario_A_expected.reverse := by
  rw [emitted_rows_eq]
  simp [all_rows, row_of, scenario_A, read_neighbours, read_neighbour, element_row,
    flux_coef, scenario_A_expected]

theorem scenario_C_first_two :
    emitted_rows scenario_C [1, 2] = some scenario_A_expected := by
  rw [emitted_rows_eq]
  simp [all_rows, row_of, scenario_C, read_neighbours, read_neighbour, element_row,
    flux_coef, scenario_A_expected]

theorem filter_global_id (ns : List Neighbour) (n : Neighbour)
    (hnd : (ns.map (fun m => m.global_id)).Nodup) (hn : n ∈ ns) :
    ns.filter (fun m => decide (m.global_id = n.global_id)) = [n] := by
  induction ns with
  | nil => simp at hn
  | cons m rest ih =>
    rw [List.map_cons, List.nodup_cons] at hnd
    obtain ⟨hm, hrest⟩ := hnd
    rcases List.mem_cons.mp hn with rfl | hmem
    · have hnone : rest.filter (fun m => decide (m.global_id = n.global_id)) = [] := by
        rw [List.filter_eq_nil_iff]
        intro x hx hxe
        apply hm
        rw [← of_decide_eq_true hxe]
        exact List.mem_map.mpr ⟨x, hx, rfl⟩
      simp [List.filter_cons, hnone]
    · have hne : ¬ m.global_id = n.global_id := by
        intro he
        apply hm
        rw [he]
        exact List.mem_map.mpr ⟨n, hmem, rfl⟩
      simp [List.filter_cons, hne, ih hrest hmem]

theorem entries_at_flux_row (gid : Int) (c1 : Centroid) (k1 p : ℚ) (hp : p ≠ 0)
    (ns : List Neighbour) (n : Neighbour)
    (hnd : (ns.map (fun m => m.global_id)).Nodup) (hn : n ∈ ns)
    (hgid : gid ≠ n.global_id) :
    entries_at (element_row gid c1 k1 p ns) n.global_id = [flux_coef c1 k1 n] := by
  unfold entries_at element_row
  simp only [ne_eq, hp, not_false_eq_true, if_true]
  rw [List.zip_append (by simp), List.filter_append, List.map_append]
  rw [List.zip_map', List.filter_map]
  have hfil : ns.filter ((fun e : Int × Double => decide (e.1 = n.global_id)) ∘
      fun m => (m.global_id, flux_coef c1 k1 m)) = [n] :=
    filter_global_id ns n hnd hn
  rw [hfil]
  simp [hgid]

theorem row_entries_at_neighbour (mb : Interface) (it : EntityHandle) (r : Row)
    (hrow : row_of mb it = some r)
    (gid : Int) (c1 : Centroid) (k1 p : ℚ) (adj : Range)
    (hg : mb.global_id_tag it = some gid) (hc : mb.centroid_tag it = some c1)
    (hk : mb.perm_tag it = some k1) (hp : mb.dirichlet_tag it = some p)
    (hadj : mb.get_bridge_adjacencies it = some adj) (hp0 : p ≠ 0)
    (hnd : adj.Nodup)
    (hinj : ∀ x y g, mb.global_id_tag x = some g → mb.global_id_tag y = some g → x = y)
    (j : EntityHandle) (hj : j ∈ adj) (hne : it ≠ j)
    (gj : Int) (cj : Centroid) (kj : ℚ)
    (hgj : mb.global_id_tag j = some gj) (hcj : mb.centroid_tag j = some cj)
    (hkj : mb.perm_tag j = some kj) :
    entries_at r gj =
      [-(get_equivalent_perm k1 kj) / get_centroid_dist c1 cj] := by
  obtain ⟨adj1, c1', k1', p1, gid1, ns, ha1, hc1, hk1, hp1, hg1, hns, hrdef⟩ :=
    row_of_some mb it r hrow
  rw [hadj] at ha1
  rw [hp] at hp1
  rw [hc] at hc1
  rw [hk] at hk1
  rw [hg] at hg1
  cases ha1
  cases hp1
  cases hc1
  cases hk1
  cases hg1
  have hread := hns hp0
  have hgids := read_neighbours_gids mb adj ns hread
  have hmap := read_neighbours_map mb adj ns hread
  have hnj : read_neighbour mb j = some { global_id := gj, centroid := cj, permeability := kj } := by
    simp only [read_neighbour, hgj, hcj, hkj]
  have hmem : ({ global_id := gj, centroid := cj, permeability := kj } : Neighbour) ∈ ns := by
    have h1 : read_neighbour mb j ∈ adj.map (read_neighbour mb) :=
      List.mem_map.mpr ⟨j, hj, rfl⟩
    rw [hmap, hnj] at h1
    obtain ⟨m, hm, hme⟩ := List.mem_map.mp h1
    cases hme
    exact hm
  have hnd1 : (adj.map mb.global_id_tag).Nodup := by
    apply List.Nodup.map_on _ hnd
    intro x hx y hy hxy
    have hx1 : mb.global_id_tag x ∈ adj.map mb.global_id_tag :=
      List.mem_map.mpr ⟨x, hx, rfl⟩
    rw [hgids] at hx1
    obtain ⟨m, -, hme⟩ := List.mem_map.mp hx1
    exact hinj x y m.global_id hme.symm (hxy ▸ hme.symm)
  have hnd2 : (ns.map (fun m => m.global_id)).Nodup := by
    rw [hgids] at hnd1
    have : ns.map (fun n => some n.global_id) = (ns.map (fun m => m.global_id)).map some := by
      rw [List.map_map]
      rfl
    rw [this] at hnd1
    exact List.Nodup.of_map _ hnd1
  have hgne : gid ≠ gj := by
    intro he
    apply hne
    exact hinj it j gid hg (he ▸ hgj)
  rw [hrdef]
  exact entries_at_flux_row gid c1 k1 p hp0 ns _ hnd2 hmem hgne

theorem two_flux_cells_rows :
    emitted_rows two_flux_cells [1, 2] = some two_flux_cells_expected := by
  rw [emitted_rows_eq]
  simp [all_rows, row_of, two_flux_cells, scenario_A, read_neighbours, read_neighbour,
    element_row, flux_coef, two_flux_cells_expected, get_equivalent_perm, get_centroid_dist]
  norm_num

theorem scenario_A_gid_injective (x y : EntityHandle) (g : Int)
    (hx : scenario_A.global_id_tag x = some g) (hy : scenario_A.global_id_tag y = some g) :
    x = y := by
  simp only [scenario_A] at hx hy
  split_ifs at hx hy <;>
    first
    | omega
    | (simp only [Option.some.injEq] at hx hy; omega)
    | simp_all

theorem read_neighbour_isSome (mb : Interface) (n : EntityHandle) :
    (read_neighbour mb n).isSome = neighbour_readable mb n := by
  unfold read_neighbour neighbour_readable
  cases mb.centroid_tag n <;> cases mb.perm_tag n <;> cases mb.global_id_tag n <;> rfl

theorem read_neighbours_isSome (mb : Interface) (adj : List EntityHandle) :
    (read_neighbours mb adj).isSome = adj.all (neighbour_readable mb) := by
  induction adj with
  | nil => rfl
  | cons n rest ih =>
    rw [List.all_cons, ← ih, ← read_neighbour_isSome]
    simp only [read_neighbours]
    cases read_neighbour mb n <;> cases read_neighbours mb rest <;> rfl

theorem row_of_isSome (mb : Interface) (it : EntityHandle) :
    (row_of mb it).isSome = readable mb it := by
  unfold row_of readable
  cases mb.get_bridge_adjacencies it with
  | none => rfl
  | some adj =>
  cases mb.centroid_tag it with
  | none => cases mb.dirichlet_tag it <;> rfl
  | some c1 =>
  cases mb.perm_tag it with
  | none => cases mb.dirichlet_tag it <;> rfl
  | some k1 =>
  cases mb.dirichlet_tag it with
  | none => rfl
  | some p =>
  by_cases hp : p = 0
  · subst hp
    cases mb.global_id_tag it <;> simp
  · simp only [ne_eq, hp, not_false_eq_true, if_true, decide_False, Bool.false_or,
      ← read_neighbours_isSome]
    cases read_neighbours mb adj <;> cases mb.global_id_tag it <;> simp

theorem all_rows_isSome (mb : Interface) (l : List EntityHandle) :
    (all_rows mb l).isSome = l.all (readable mb) := by
  induction l with
  | nil => rfl
  | cons it rest ih =>
    rw [List.all_cons, ← ih, ← row_of_isSome]
    simp only [all_rows]
    cases row_of mb it <;> cases all_rows mb rest <;> rfl

theorem emitted_rows_isSome (mb : Interface) (my_elems : List EntityHandle) :
    (emitted_rows mb my_elems).isSome = my_elems.all (readable mb) := by
  rw [emitted_rows_eq, all_rows_isSome]

theorem all_emitted_isSome (procs : List Process) :
    (all_emitted procs).isSome = procs.all (fun p => p.my_elems.all (readable p.mb)) := by
  induction procs with
  | nil => rfl
  | cons p ps ih =>
    rw [List.all_cons, ← ih, ← emitted_rows_isSome]
    simp only [all_emitted]
    cases emitted_rows p.mb p.my_elems <;> cases all_emitted ps <;> rfl

theorem get_centroid_dist_comm (c1 c2 : Centroid) :
    get_centroid_dist c1 c2 = get_centroid_dist c2 c1 := by
  unfold get_centroid_dist
  ring

theorem flux_coef_fin (c1 : Centroid) (k1 : ℚ) (n : Neighbour)
    (hk : k1 + n.permeability ≠ 0) (hd : get_centroid_dist c1 n.centroid ≠ 0) :
    flux_coef c1 k1 n = Double.fin (flux_rational c1 k1 n) := by
  simp [flux_coef, flux_rational, get_equivalent_perm, hk, hd]

theorem impermeable_cells_row : emitted_rows impermeable_cells [1] = some [nonfinite_row] := by
  rw [emitted_rows_eq]
  simp [all_rows, row_of, impermeable_cells, scenario_A, read_neighbours, read_neighbour,
    element_row, flux_coef, nonfinite_row, get_equivalent_perm]

theorem mirrored_cells_row : emitted_rows mirrored_cells [1] = some [nonfinite_row] := by
  rw [emitted_rows_eq]
  simp [all_rows, row_of, mirrored_cells, scenario_A, read_neighbours, read_neighbour,
    element_row, flux_coef, nonfinite_row, get_equivalent_perm, get_centroid_dist]
  norm_num

theorem scenario_A_no_zero_divisor :
    ∀ n ∈ ([2] : Range), ∀ (cn : Centroid) (kn : ℚ),
      scenario_A.centroid_tag n = some cn → scenario_A.perm_tag n = some kn →
      (2 : ℚ) + kn ≠ 0 ∧ get_centroid_dist ![0, 0, 0] cn ≠ 0 := by
  intro n hn cn kn hcn hkn
  have hn2 : n = 2 := by simpa using hn
  subst hn2
  simp only [scenario_A] at hcn hkn
  simp only [OfNat.ofNat_ne_one, if_false, if_true, Option.some.injEq] at hcn hkn
  subst hcn hkn
  norm_num [get_centroid_dist]

/-! ## The claims -/

/-- C1 (row-sum invariant), as stated, fails. For two adjacent impermeable
cells (permeabilities 0, so `k1 + k2 = 0` at source line 42) and for two cells
mirrored about `x = 0` (so `get_centroid_dist` is 0 at source line 160), the
row emitted for the first cell, whose boundary value is 5, holds no value in
either entry; hence it is not true that every row of an element with nonzero
boundary value has diagonal plus off-diagonals equal to zero. -/
theorem row_sum_fails_on_zero_divisor :
    emitted_rows impermeable_cells [1] = some [nonfinite_row] ∧
    emitted_rows mirrored_cells [1] = some [nonfinite_row] ∧
    ¬ (∀ (mb : Interface) (my_elems : List EntityHandle) (rows : List Row),
        emitted_rows mb my_elems = some rows →
        ∀ (i : Nat) (hi : i < my_elems.length) (adj : Range),
          mb.get_bridge_adjacencies my_elems[i] = some adj →
          ∀ p : ℚ, mb.dirichlet_tag my_elems[i] = some p → p ≠ 0 →
          ∃ r offdiag diag, rows[i]? = some r ∧ r.row_values = offdiag ++ [diag] ∧
            offdiag.length = adj.length ∧ diag + offdiag.sum = Double.fin 0) := by
  refine ⟨impermeable_cells_row, mirrored_cells_row, ?_⟩
  intro hall
  obtain ⟨r, offdiag, diag, hr, hvals, -, hsum⟩ :=
    hall impermeable_cells [1] [nonfinite_row] impermeable_cells_row 0 (by decide) [2] rfl
      5 rfl (by norm_num)
  simp only [List.getElem?_cons_zero, Option.some.injEq] at hr
  subst hr
  have hlast : diag = Double.nonfinite := by
    have h := congrArg List.getLast? hvals
    simpa [nonfinite_row] using h.symm
  rw [hlast, Double.nonfinite_add] at hsum
  exact Double.noConfusion hsum

/-- C1 (row-sum invariant), amended. In a completed run of the assembly loop,
let an owned element have nonzero boundary value, and let no quotient formed for
it have a zero divisor: for every neighbour, the two permeabilities do not sum
to zero and `get_centroid_dist` of the two centroids is not zero. Then the row
emitted for it consists of one value per neighbour (the off-diagonals) followed
by the diagonal, every entry is a rational, and the diagonal plus the sum of the
off-diagonals is zero in exact arithmetic. -/
theorem row_sum_invariant (mb : Interface) (my_elems : List EntityHandle)
    (rows : List Row) (hrun : emitted_rows mb my_elems = some rows)
    (i : Nat) (hi : i < my_elems.length)
    (adj : Range) (hadj : mb.get_bridge_adjacencies my_elems[i] = some adj)
    (p : ℚ) (hp : mb.dirichlet_tag my_elems[i] = some p) (hne : p ≠ 0)
    (c1 : Centroid) (hc : mb.centroid_tag my_elems[i] = some c1)
    (k1 : ℚ) (hk : mb.perm_tag my_elems[i] = some k1)
    (hdiv : ∀ n ∈ adj, ∀ (cn : Centroid) (kn : ℚ),
      mb.centroid_tag n = some cn → mb.perm_tag n = some kn →
      k1 + kn ≠ 0 ∧ get_centroid_dist c1 cn ≠ 0) :
    ∃ r offdiag diag, rows[i]? = some r ∧ r.row_values = offdiag ++ [diag] ∧
      offdiag.length = adj.length ∧ diag + offdiag.sum = Double.fin 0 ∧
      ∀ v ∈ r.row_values, v ≠ Double.nonfinite := by
  obtain ⟨r, hr, hrow⟩ := emitted_rows_getElem mb my_elems rows hrun i hi
  obtain ⟨adj1, c1', k1', p1, gid, ns, ha1, hc1, hk1, hp1, -, hns, hrdef⟩ :=
    row_of_some mb my_elems[i] r hrow
  rw [hadj] at ha1
  rw [hp] at hp1
  rw [hc] at hc1
  rw [hk] at hk1
  cases ha1
  cases hp1
  cases hc1
  cases hk1
  have hread := hns hne
  have hfin : ns.map (flux_coef c1 k1) = (ns.map (flux_rational c1 k1)).map Double.fin := by
    rw [List.map_map]
    apply List.map_congr_left
    intro n hn
    have hmem : some n ∈ adj.map (read_neighbour mb) := by
      rw [read_neighbours_map mb adj ns hread]
      exact List.mem_map.mpr ⟨n, hn, rfl⟩
    obtain ⟨h, hh, hhn⟩ := List.mem_map.mp hmem
    obtain ⟨hcn, hkn, -⟩ := read_neighbour_some mb h n hhn
    obtain ⟨hk0, hd0⟩ := hdiv h hh n.centroid n.permeability hcn hkn
    exact flux_coef_fin c1 k1 n hk0 hd0
  refine ⟨r, ns.map (flux_coef c1 k1), -((ns.map (flux_coef c1 k1)).sum), hr, ?_, ?_, ?_, ?_⟩
  · rw [hrdef]
    simp [element_row, hne]
  · rw [List.length_map]
    exact read_neighbours_length mb adj ns hread
  · rw [hfin, Double.sum_map_fin]
    simp
  · rw [hrdef]
    simp only [element_row, ne_eq, hne, not_false_eq_true, if_true, hfin, Double.sum_map_fin,
      Double.neg_fin]
    intro v hv
    rcases List.mem_append.mp hv with h1 | h1
    · obtain ⟨q, -, rfl⟩ := List.mem_map.mp h1
      exact Double.noConfusion
    · rw [List.mem_singleton] at h1
      rw [h1]
      exact Double.noConfusion

/-- Scenario A, cell 0: no zero divisor, and its row sums to zero. -/
theorem row_sum_invariant_witness :
    emitted_rows scenario_A [1, 2] = some scenario_A_expected ∧
      scenario_A.get_bridge_adjacencies 1 = some [2] ∧
      scenario_A.dirichlet_tag 1 = some 5 ∧ (5 : ℚ) ≠ 0 ∧
      scenario_A.centroid_tag 1 = some ![0, 0, 0] ∧ scenario_A.perm_tag 1 = some 2 ∧
      (∀ n ∈ ([2] : Range), ∀ (cn : Centroid) (kn : ℚ),
        scenario_A.centroid_tag n = some cn → scenario_A.perm_tag n = some kn →
        (2 : ℚ) + kn ≠ 0 ∧ get_centroid_dist ![0, 0, 0] cn ≠ 0) ∧
      ∃ r offdiag diag, scenario_A_expected[0]? = some r ∧
        r.row_values = offdiag ++ [diag] ∧ offdiag.length = [2].length ∧
        diag + offdiag.sum = Double.fin 0 ∧ ∀ v ∈ r.row_values, v ≠ Double.nonfinite :=
  ⟨scenario_A_rows, rfl, rfl, by norm_num, rfl, rfl, scenario_A_no_zero_divisor,
    row_sum_invariant scenario_A [1, 2] _ scenario_A_rows 0 (by decide) [2] rfl 5 rfl
      (by norm_num) ![0, 0, 0] rfl 2 rfl scenario_A_no_zero_divisor⟩

/-- C2 (fixed-row invariant). In a completed run, the row emitted for an owned
element whose boundary value is exactly zero has exactly one entry: column the
element's own global id, coefficient 1, whatever its neighbours are. -/
theorem fixed_row_invariant (mb : Interface) (my_elems : List EntityHandle)
    (rows : List Row) (hrun : emitted_rows mb my_elems = some rows)
    (i : Nat) (hi : i < my_elems.length)
    (hp : mb.dirichlet_tag my_elems[i] = some 0) :
    ∃ gid, mb.global_id_tag my_elems[i] = some gid ∧
      rows[i]? = some { row_id := gid, row_values := [Double.fin 1], row_indexes := [gid] } := by
  obtain ⟨r, hr, hrow⟩ := emitted_rows_getElem mb my_elems rows hrun i hi
  obtain ⟨adj1, c1, k1, p1, gid, ns, -, -, -, hp1, hg, -, hrdef⟩ :=
    row_of_some mb my_elems[i] r hrow
  rw [hp] at hp1
  cases hp1
  refine ⟨gid, hg, ?_⟩
  rw [hr, hrdef]
  simp [element_row]

/-- Scenario A, cell 1: its row is the single entry `(1, 1)`. -/
theorem fixed_row_invariant_witness :
    emitted_rows scenario_A [1, 2] = some scenario_A_expected ∧
      scenario_A.dirichlet_tag 2 = some 0 ∧
      ∃ gid, scenario_A.global_id_tag 2 = some gid ∧
        scenario_A_expected[1]? =
          some { row_id := gid, row_values := [Double.fin 1], row_indexes := [gid] } :=
  ⟨scenario_A_rows, rfl,
    fixed_row_invariant scenario_A [1, 2] _ scenario_A_rows 1 (by decide) rfl⟩

/-- C3 (flux-row content). In a completed run, the row emitted for an owned
element `e` with nonzero boundary value and neighbours `n_1..n_m` (adjacency
order) has row index `e.global_id`, columns `[n_1.global_id, .., n_m.global_id,
e.global_id]` and coefficients `[c_1, .., c_m, -(c_1 + .. + c_m)]`, where
`c_i = -get_equivalent_perm(k_e, k_{n_i}) / get_centroid_dist(c_e, c_{n_i})` and
`get_equivalent_perm(k1, k2) = 2*k1*k2/(k1+k2)` (no value when `k1 + k2 = 0`). -/
theorem flux_row_content (mb : Interface) (my_elems : List EntityHandle)
    (rows : List Row) (hrun : emitted_rows mb my_elems = some rows)
    (i : Nat) (hi : i < my_elems.length)
    (gid : Int) (c1 : Centroid) (k1 p : ℚ) (adj : Range)
    (hg : mb.global_id_tag my_elems[i] = some gid)
    (hc : mb.centroid_tag my_elems[i] = some c1)
    (hk : mb.perm_tag my_elems[i] = some k1)
    (hp : mb.dirichlet_tag my_elems[i] = some p)
    (hadj : mb.get_bridge_adjacencies my_elems[i] = some adj)
    (hne : p ≠ 0) :
    (∃ ns : List Neighbour,
      adj.map mb.global_id_tag = ns.map (fun n => some n.global_id) ∧
      adj.map mb.centroid_tag = ns.map (fun n => some n.centroid) ∧
      adj.map mb.perm_tag = ns.map (fun n => some n.permeability) ∧
      rows[i]? = some
        { row_id := gid
          row_indexes := ns.map (fun n => n.global_id) ++ [gid]
          row_values :=
            ns.map (fun n =>
              -(get_equivalent_perm k1 n.permeability) /
                get_centroid_dist c1 n.centroid)
            ++ [-((ns.map (fun n =>
              -(get_equivalent_perm k1 n.permeability) /
                get_centroid_dist c1 n.centroid)).sum)] }) ∧
    ∀ a b : ℚ, get_equivalent_perm a b =
      if a + b = 0 then Double.nonfinite else Double.fin (2 * a * b / (a + b)) := by
  refine ⟨?_, fun a b => rfl⟩
  obtain ⟨r, hr, hrow⟩ := emitted_rows_getElem mb my_elems rows hrun i hi
  obtain ⟨adj1, c1', k1', p1, gid1, ns, ha1, hc1, hk1, hp1, hg1, hns, hrdef⟩ :=
    row_of_some mb my_elems[i] r hrow
  rw [hadj] at ha1
  rw [hp] at hp1
  rw [hc] at hc1
  rw [hk] at hk1
  rw [hg] at hg1
  cases ha1
  cases hp1
  cases hc1
  cases hk1
  cases hg1
  have hread := hns hne
  refine ⟨ns, read_neighbours_gids mb adj ns hread, read_neighbours_centroids mb adj ns hread,
    read_neighbours_perms mb adj ns hread, ?_⟩
  rw [hr, hrdef]
  simp only [element_row, ne_eq, hne, not_false_eq_true, if_true]
  rfl

/-- Scenario A: the two rows the spec expects, and the content of row 0. -/
theorem flux_row_content_witness :
    emitted_rows scenario_A [1, 2] = some scenario_A_expected ∧
      scenario_A.global_id_tag 1 = some 0 ∧
      scenario_A.centroid_tag 1 = some ![0, 0, 0] ∧
      scenario_A.perm_tag 1 = some 2 ∧
      scenario_A.dirichlet_tag 1 = some 5 ∧
      scenario_A.get_bridge_adjacencies 1 = some [2] ∧ (5 : ℚ) ≠ 0 ∧
      ((∃ ns : List Neighbour,
        [2].map scenario_A.global_id_tag = ns.map (fun n => some n.global_id) ∧
        [2].map scenario_A.centroid_tag = ns.map (fun n => some n.centroid) ∧
        [2].map scenario_A.perm_tag = ns.map (fun n => some n.permeability) ∧
        scenario_A_expected[0]? = some
          { row_id := 0
            row_indexes := ns.map (fun n => n.global_id) ++ [0]
            row_values :=
              ns.map (fun n =>
                -(get_equivalent_perm 2 n.permeability) /
                  get_centroid_dist ![0, 0, 0] n.centroid)
              ++ [-((ns.map (fun n =>
                -(get_equivalent_perm 2 n.permeability) /
                  get_centroid_dist ![0, 0, 0] n.centroid)).sum)] }) ∧
      ∀ a b : ℚ, get_equivalent_perm a b =
        if a + b = 0 then Double.nonfinite else Double.fin (2 * a * b / (a + b))) :=
  ⟨scenario_A_rows, rfl, rfl, rfl, rfl, rfl, by norm_num,
    flux_row_content scenario_A [1, 2] _ scenario_A_rows 0 (by decide) 0 ![0, 0, 0] 2 5 [2]
      rfl rfl rfl rfl rfl (by norm_num)⟩

/-- C4 (symmetry of the transmissibility inputs). For positive `a`, `b`,
`get_equivalent_perm a b = get_equivalent_perm b a`, and for all centroids
`get_centroid_dist c1 c2 = get_centroid_dist c2 c1`. -/
theorem transmissibility_inputs_symmetric (a b : ℚ) (_ha : 0 < a) (_hb : 0 < b)
    (c1 c2 : Centroid) :
    get_equivalent_perm a b = get_equivalent_perm b a ∧
      get_centroid_dist c1 c2 = get_centroid_dist c2 c1 := by
  constructor
  · exact get_equivalent_perm_comm a b
  · unfold get_centroid_dist
    ring

/-- Symmetry on the permeabilities and centroids of Scenario A. -/
theorem transmissibility_inputs_symmetric_witness :
    (0 : ℚ) < 2 ∧ (0 : ℚ) < 4 ∧
      get_equivalent_perm 2 4 = get_equivalent_perm 4 2 ∧
      get_centroid_dist ![0, 0, 0] ![1, 0, 0] = get_centroid_dist ![1, 0, 0] ![0, 0, 0] :=
  ⟨by norm_num, by norm_num,
    transmissibility_inputs_symmetric 2 4 (by norm_num) (by norm_num) ![0, 0, 0] ![1, 0, 0]⟩

/-- C5 (distance contract), evaluation of the code. The centroids `(-1/2,0,0)`
and `(1/2,0,0)` are distinct, yet `get_centroid_dist` returns `0` for them; and
the pair `(1,0,0)`, `(2,0,0)` is closer together than the pair `(-1,0,0)`,
`(3/2,0,0)`, yet `get_centroid_dist` is larger on the former (9 against 1/4).
So the function is neither strictly positive on distinct centroids nor
increasing with their separation. -/
theorem get_centroid_dist_adds_coordinates :
    ((![-1/2, 0, 0] : Centroid) ≠ ![1/2, 0, 0] ∧
      get_centroid_dist ![-1/2, 0, 0] ![1/2, 0, 0] = 0) ∧
    (euclidean_sq ![1, 0, 0] ![2, 0, 0] < euclidean_sq ![-1, 0, 0] ![3/2, 0, 0] ∧
      get_centroid_dist ![1, 0, 0] ![2, 0, 0] = 9 ∧
      get_centroid_dist ![-1, 0, 0] ![3/2, 0, 0] = 1/4) ∧
    ¬ (∀ c1 c2 : Centroid, c1 ≠ c2 → 0 < get_centroid_dist c1 c2) ∧
    ¬ (∀ c1 c2 c3 c4 : Centroid, euclidean_sq c1 c2 < euclidean_sq c3 c4 →
        get_centroid_dist c1 c2 < get_centroid_dist c3 c4) := by
  have hne : (![-1/2, 0, 0] : Centroid) ≠ ![1/2, 0, 0] := by
    intro h
    have h0 := congrFun h 0
    norm_num at h0
  have hzero : get_centroid_dist ![-1/2, 0, 0] ![1/2, 0, 0] = 0 := by
    norm_num [get_centroid_dist]
  have hsep : euclidean_sq ![1, 0, 0] ![2, 0, 0] < euclidean_sq ![-1, 0, 0] ![3/2, 0, 0] := by
    norm_num [euclidean_sq]
  have hnear : get_centroid_dist ![1, 0, 0] ![2, 0, 0] = 9 := by
    norm_num [get_centroid_dist]
  have hfar : get_centroid_dist ![-1, 0, 0] ![3/2, 0, 0] = 1/4 := by
    norm_num [get_centroid_dist]
  refine ⟨⟨hne, hzero⟩, ⟨hsep, hnear, hfar⟩, ?_, ?_⟩
  · intro hall
    have hpos := hall _ _ hne
    rw [hzero] at hpos
    exact lt_irrefl _ hpos
  · intro hall
    have hlt := hall _ _ _ _ hsep
    rw [hnear, hfar] at hlt
    norm_num at hlt

/-- C6 (input-file selection), evaluation of the code. With exactly one
positional argument (`argc = 2`) the file name handed to `load_file` is the
default `part_mesh.h5m`, not `argv[1]`; `argv[1]` is used from `argc = 3` on,
and the default is used when no argument is supplied. -/
theorem input_file_one_argument :
    input_file ["parallel_tpfa_solver", "my_mesh.h5m"] = "part_mesh.h5m" ∧
      input_file ["parallel_tpfa_solver", "my_mesh.h5m", "extra"] = "my_mesh.h5m" ∧
      input_file ["parallel_tpfa_solver"] = "part_mesh.h5m" ∧
      ¬ (∀ argv : List String, 2 ≤ argv.length → some (input_file argv) = argv[1]?) := by
  refine ⟨by decide, by decide, by decide, ?_⟩
  intro hall
  have h := hall ["parallel_tpfa_solver", "my_mesh.h5m"] (by decide)
  revert h
  decide

/-- C7 (row stencil bound). In a completed run, every column index of the row
emitted for an owned element is the element's own global id or the global id of
one of its bridge-adjacent elements, and the row has at most (number of
neighbours + 1) entries, whatever the boundary value. -/
theorem row_stencil_bound (mb : Interface) (my_elems : List EntityHandle)
    (rows : List Row) (hrun : emitted_rows mb my_elems = some rows)
    (i : Nat) (hi : i < my_elems.length)
    (adj : Range) (hadj : mb.get_bridge_adjacencies my_elems[i] = some adj) :
    ∃ r, rows[i]? = some r ∧
      (∀ col ∈ r.row_indexes,
        mb.global_id_tag my_elems[i] = some col ∨
          ∃ n ∈ adj, mb.global_id_tag n = some col) ∧
      r.row_indexes.length ≤ adj.length + 1 ∧
      r.row_values.length = r.row_indexes.length := by
  obtain ⟨r, hr, hrow⟩ := emitted_rows_getElem mb my_elems rows hrun i hi
  obtain ⟨adj1, c1, k1, p, gid, ns, ha1, -, -, -, hg, hns, hrdef⟩ :=
    row_of_some mb my_elems[i] r hrow
  rw [hadj] at ha1
  cases ha1
  refine ⟨r, hr, ?_⟩
  by_cases hp : p = 0
  · subst hp
    rw [hrdef]
    simp [element_row, hg]
  · have hread := hns hp
    have hgids := read_neighbours_gids mb adj ns hread
    have hlen := read_neighbours_length mb adj ns hread
    rw [hrdef]
    simp only [element_row, ne_eq, hp, not_false_eq_true, if_true, List.mem_append,
      List.mem_map, List.mem_singleton, List.length_append, List.length_map,
      List.length_singleton, hlen, le_refl, and_true]
    rintro col (⟨n, hn, rfl⟩ | rfl)
    · right
      have hmem : some n.global_id ∈ adj.map mb.global_id_tag := by
        rw [hgids]
        exact List.mem_map.mpr ⟨n, hn, rfl⟩
      obtain ⟨h, hh, hh2⟩ := List.mem_map.mp hmem
      exact ⟨h, hh, hh2⟩
    · left
      exact hg

/-- Scenario A, cell 0: columns among `{0, 1}`, at most two entries. -/
theorem row_stencil_bound_witness :
    emitted_rows scenario_A [1, 2] = some scenario_A_expected ∧
      scenario_A.get_bridge_adjacencies 1 = some [2] ∧
      ∃ r, scenario_A_expected[0]? = some r ∧
        (∀ col ∈ r.row_indexes,
          scenario_A.global_id_tag 1 = some col ∨
            ∃ n ∈ [2], scenario_A.global_id_tag n = some col) ∧
        r.row_indexes.length ≤ [2].length + 1 ∧
        r.row_values.length = r.row_indexes.length :=
  ⟨scenario_A_rows, rfl,
    row_stencil_bound scenario_A [1, 2] _ scenario_A_rows 0 (by decide) [2] rfl⟩

/-- C8 (row-map bijection). The run of all processes completes exactly when
every read of every process succeeds. When it completes, each process emits
exactly one row per owned element, with row index that element's global id;
hence, when the global ids of the owned elements of all processes are unique and
dense in `{0..N-1}`, the multiset of emitted row indices is exactly `{0..N-1}`
(no duplicates, no gaps), and the total number of emitted rows is the global
element count computed by the sum reduction. -/
theorem row_map_bijection (procs : List Process) :
    (all_emitted procs).isSome = procs.all (fun p => p.my_elems.all (readable p.mb)) ∧
    ∀ rows : List Row, all_emitted procs = some rows →
      (∀ p ∈ procs, ∃ rs, emitted_rows p.mb p.my_elems = some rs ∧
        rs.length = p.my_elems.length ∧
        rs.map (fun r => some r.row_id) = p.my_elems.map p.mb.global_id_tag) ∧
      (∀ N : Nat,
        (↑(owned_gids procs) : Multiset (Option Int))
            = (Multiset.range N).map (fun n : Nat => some (n : Int)) →
        (↑(rows.map (fun r => r.row_id)) : Multiset Int)
            = (Multiset.range N).map (fun n : Nat => (n : Int)) ∧
        (rows.map (fun r => r.row_id)).Nodup ∧
        num_global_elems procs = N) ∧
      (rows.length : Int) = num_global_elems procs := by
  refine ⟨all_emitted_isSome procs, ?_⟩
  intro rows hrun
  have hids := all_emitted_row_ids procs rows hrun
  have hlen : (rows.length : Int) = num_global_elems procs := by
    rw [← owned_gids_length, ← hids, List.length_map]
  refine ⟨?_, ?_, hlen⟩
  · intro p hp
    obtain ⟨rs, hrs⟩ := all_emitted_mem procs rows hrun p hp
    have hmap := emitted_rows_row_ids p.mb p.my_elems rs hrs
    refine ⟨rs, hrs, ?_, hmap⟩
    simpa using congrArg List.length hmap
  · intro N hN
    have hms : (↑(rows.map (fun r => r.row_id)) : Multiset Int)
        = (Multiset.range N).map (fun n : Nat => (n : Int)) := by
      apply Multiset.map_injective (Option.some_injective Int)
      rw [Multiset.map_map]
      show _ = Multiset.map (fun n : Nat => some (n : Int)) (Multiset.range N)
      rw [← hN, ← hids, Multiset.map_coe, List.map_map]
      rfl
    refine ⟨hms, ?_, ?_⟩
    · rw [← Multiset.coe_nodup, hms]
      exact (Multiset.nodup_range N).map Nat.cast_injective
    · rw [← hlen]
      have hc := congrArg Multiset.card hms
      simp only [Multiset.coe_card, List.length_map, Multiset.card_map,
        Multiset.card_range] at hc
      exact_mod_cast hc

/-- Scenario C: three processes emit rows 0, 1, 2, and the count is 3. -/
theorem row_map_bijection_witness :
    all_emitted scenario_C_procs = some scenario_C_expected ∧
      (↑(owned_gids scenario_C_procs) : Multiset (Option Int))
          = (Multiset.range 3).map (fun n : Nat => some (n : Int)) ∧
      ((↑(scenario_C_expected.map (fun r => r.row_id)) : Multiset Int)
          = (Multiset.range 3).map (fun n : Nat => (n : Int)) ∧
        (scenario_C_expected.map (fun r => r.row_id)).Nodup ∧
        num_global_elems scenario_C_procs = (3 : Nat)) ∧
      (scenario_C_expected.length : Int) = num_global_elems scenario_C_procs :=
  ⟨scenario_C_rows, rfl,
    ((row_map_bijection scenario_C_procs).2 scenario_C_expected scenario_C_rows).2.1 3 rfl,
    ((row_map_bijection scenario_C_procs).2 scenario_C_expected scenario_C_rows).2.2⟩

/-- C9 (row independence). For any contents of the uninitialised scratch
variables at loop entry: (1) the loop completes exactly when every read made
for every owned element succeeds, and the rows it inserts, reusing `row_values`,
`row_indexes`, `adjacencies` and `diag_coef`, are exactly the rows `all_rows`
computes element by element with no shared state; (2) the three buffers are
empty whenever an iteration starts: after every processed prefix `pre` of the
owned elements the state has empty buffers and the run continues from it with
the remaining elements; (3) the row emitted for an element is the same in every run that
processes it, whatever was processed before it and in whatever order; (4) it
depends only on the attributes of the element and of its neighbours. -/
theorem row_independence (mb : Interface) (my_elems : List EntityHandle)
    (e1_centroid e2_centroid : Centroid) (e1_perm e2_perm : ℚ) :
    ((assembly_loop mb my_elems
        (initial_state e1_centroid e2_centroid e1_perm e2_perm)).isSome
      = my_elems.all (readable mb) ∧
    (assembly_loop mb my_elems
        (initial_state e1_centroid e2_centroid e1_perm e2_perm)).map (fun s => s.k_matrix)
      = all_rows mb my_elems) ∧
    (∀ (pre post : List EntityHandle) (s : LoopState), my_elems = pre ++ post →
      assembly_loop mb pre (initial_state e1_centroid e2_centroid e1_perm e2_perm) = some s →
      (s.row_values = [] ∧ s.row_indexes = [] ∧ s.adjacencies = []) ∧
        assembly_loop mb my_elems (initial_state e1_centroid e2_centroid e1_perm e2_perm)
          = assembly_loop mb post s) ∧
    (∀ (other_elems : List EntityHandle) (rows other_rows : List Row),
      emitted_rows mb my_elems = some rows →
      emitted_rows mb other_elems = some other_rows →
      ∀ (i j : Nat) (hi : i < my_elems.length) (hj : j < other_elems.length),
        my_elems[i] = other_elems[j] →
        rows[i]? = other_rows[j]? ∧ rows[i]? = row_of mb my_elems[i]) ∧
    (∀ (mb2 : Interface) (rows rows2 : List Row),
      emitted_rows mb my_elems = some rows →
      emitted_rows mb2 my_elems = some rows2 →
      ∀ (i : Nat) (hi : i < my_elems.length),
        mb.get_bridge_adjacencies my_elems[i] = mb2.get_bridge_adjacencies my_elems[i] →
        mb.centroid_tag my_elems[i] = mb2.centroid_tag my_elems[i] →
        mb.perm_tag my_elems[i] = mb2.perm_tag my_elems[i] →
        mb.dirichlet_tag my_elems[i] = mb2.dirichlet_tag my_elems[i] →
        mb.global_id_tag my_elems[i] = mb2.global_id_tag my_elems[i] →
        (∀ adj, mb.get_bridge_adjacencies my_elems[i] = some adj → ∀ n ∈ adj,
          mb.centroid_tag n = mb2.centroid_tag n ∧ mb.perm_tag n = mb2.perm_tag n ∧
            mb.global_id_tag n = mb2.global_id_tag n) →
        rows[i]? = rows2[i]?) := by
  have hempty := initial_state_buffers_empty e1_centroid e2_centroid e1_perm e2_perm
  have hrows : (assembly_loop mb my_elems
      (initial_state e1_centroid e2_centroid e1_perm e2_perm)).map (fun s => s.k_matrix)
        = all_rows mb my_elems := by
    rw [assembly_loop_k_matrix mb my_elems _ hempty]
    cases all_rows mb my_elems <;> simp [initial_state]
  refine ⟨⟨?_, hrows⟩, ?_, ?_, ?_⟩
  · rw [← all_rows_isSome, ← hrows, Option.isSome_map']
  · intro pre post s hsplit hs
    refine ⟨assembly_loop_buffers_empty mb pre _ s hempty hs, ?_⟩
    rw [hsplit, assembly_loop_append, hs]
    rfl
  · intro other_elems rows other_rows hrows hother i j hi hj hij
    obtain ⟨r, hr, hrow⟩ := emitted_rows_getElem mb my_elems rows hrows i hi
    obtain ⟨r2, hr2, hrow2⟩ := emitted_rows_getElem mb other_elems other_rows hother j hj
    rw [← hij, hrow] at hrow2
    rw [hr, hr2, hrow]
    exact ⟨hrow2, rfl⟩
  · intro mb2 rows rows2 hrows hrows2 i hi hadj hc hk hp hg hn
    obtain ⟨r, hr, hrow⟩ := emitted_rows_getElem mb my_elems rows hrows i hi
    obtain ⟨r2, hr2, hrow2⟩ := emitted_rows_getElem mb2 my_elems rows2 hrows2 i hi
    rw [← row_of_congr mb mb2 my_elems[i] hadj hc hk hp hg hn, hrow] at hrow2
    rw [hr, hr2]
    exact hrow2

/-- Scenario A processed as `[1, 2]` and as `[2, 1]`, and cell 0 inside the
larger mesh of Scenario C. -/
theorem row_independence_witness :
    ((assembly_loop scenario_A [1, 2] (initial_state 0 0 0 0)).isSome
        = [1, 2].all (readable scenario_A) ∧
      (assembly_loop scenario_A [1, 2] (initial_state 0 0 0 0)).map (fun s => s.k_matrix)
        = all_rows scenario_A [1, 2]) ∧
      (([1, 2] : List EntityHandle) = [1] ++ [2] ∧
        assembly_loop scenario_A [1] (initial_state 0 0 0 0) = some scenario_A_after_first ∧
        (scenario_A_after_first.row_values = [] ∧ scenario_A_after_first.row_indexes = [] ∧
          scenario_A_after_first.adjacencies = []) ∧
        assembly_loop scenario_A [1, 2] (initial_state 0 0 0 0)
          = assembly_loop scenario_A [2] scenario_A_after_first) ∧
      (emitted_rows scenario_A [1, 2] = some scenario_A_expected ∧
        emitted_rows scenario_A [2, 1] = some scenario_A_expected.reverse ∧
        scenario_A_expected[0]? = scenario_A_expected.reverse[1]? ∧
        scenario_A_expected[0]? = row_of scenario_A 1) ∧
      (emitted_rows scenario_C [1, 2] = some scenario_A_expected ∧
        scenario_A.get_bridge_adjacencies 1 = scenario_C.get_bridge_adjacencies 1 ∧
        scenario_A.centroid_tag 1 = scenario_C.centroid_tag 1 ∧
        scenario_A.perm_tag 1 = scenario_C.perm_tag 1 ∧
        scenario_A.dirichlet_tag 1 = scenario_C.dirichlet_tag 1 ∧
        scenario_A.global_id_tag 1 = scenario_C.global_id_tag 1 ∧
        scenario_A_expected[0]? = scenario_A_expected[0]?) :=
  ⟨(row_independence scenario_A [1, 2] 0 0 0 0).1,
    ⟨rfl, scenario_A_first_iteration,
      (row_independence scenario_A [1, 2] 0 0 0 0).2.1 [1] [2] scenario_A_after_first rfl
        scenario_A_first_iteration⟩,
    ⟨scenario_A_rows, scenario_A_rows_swapped,
      (row_independence scenario_A [1, 2] 0 0 0 0).2.2.1 [2, 1] scenario_A_expected
        scenario_A_expected.reverse scenario_A_rows scenario_A_rows_swapped 0 1
        (by decide) (by decide) rfl⟩,
    ⟨scenario_C_first_two, rfl, rfl, rfl, rfl, rfl,
      (row_independence scenario_A [1, 2] 0 0 0 0).2.2.2 scenario_C scenario_A_expected
        scenario_A_expected scenario_A_rows scenario_C_first_two 0 (by decide)
        rfl rfl rfl rfl rfl
        (by
          intro adj hadj n hn
          have hadj2 : adj = [2] := by
            simp only [scenario_A, List.getElem_cons_zero, if_true, Option.some.injEq] at hadj
            exact hadj.symm
          subst hadj2
          have hn2 : n = 2 := by simpa using hn
          subst hn2
          exact ⟨rfl, rfl, rfl⟩)⟩⟩

/-- C10 (reciprocity of the flux coupling). Let `i` be owned by a process `P` and
`j` by a process `Q` (possibly the same), each bridge-adjacent to the other in
its owner's view and carrying the same global id, centroid and permeability in
both views; let every neighbour appear once in the two adjacency lists and
global ids be distinct in each view. If `i` has nonzero boundary value, row `i`
holds exactly one coefficient at column `j`, equal to
`-get_equivalent_perm(k_i,k_j)/get_centroid_dist(c_i,c_j)`. If `j` has nonzero
boundary value too, row `j` holds exactly that same coefficient at column `i`;
if `j` has zero boundary value, row `j` has no entry at column `i`. -/
theorem flux_reciprocity (mbP mbQ : Interface) (elemsP elemsQ : List EntityHandle)
    (rowsP rowsQ : List Row)
    (hrunP : emitted_rows mbP elemsP = some rowsP)
    (hrunQ : emitted_rows mbQ elemsQ = some rowsQ)
    (a b : Nat) (ha : a < elemsP.length) (hb : b < elemsQ.length)
    (jP iQ : EntityHandle)
    (gi gj : Int) (ci cj : Centroid) (ki kj pi pj : ℚ) (adjI adjJ : Range)
    (hPi : mbP.global_id_tag elemsP[a] = some gi ∧ mbP.centroid_tag elemsP[a] = some ci ∧
      mbP.perm_tag elemsP[a] = some ki)
    (hPj : mbP.global_id_tag jP = some gj ∧ mbP.centroid_tag jP = some cj ∧
      mbP.perm_tag jP = some kj)
    (hQj : mbQ.global_id_tag elemsQ[b] = some gj ∧ mbQ.centroid_tag elemsQ[b] = some cj ∧
      mbQ.perm_tag elemsQ[b] = some kj)
    (hQi : mbQ.global_id_tag iQ = some gi ∧ mbQ.centroid_tag iQ = some ci ∧
      mbQ.perm_tag iQ = some ki)
    (hpi : mbP.dirichlet_tag elemsP[a] = some pi)
    (hpj : mbQ.dirichlet_tag elemsQ[b] = some pj)
    (hadjI : mbP.get_bridge_adjacencies elemsP[a] = some adjI)
    (hadjJ : mbQ.get_bridge_adjacencies elemsQ[b] = some adjJ)
    (hjmem : jP ∈ adjI) (himem : iQ ∈ adjJ)
    (hij : elemsP[a] ≠ jP) (hji : elemsQ[b] ≠ iQ)
    (hndI : adjI.Nodup) (hndJ : adjJ.Nodup)
    (hinjP : ∀ x y g, mbP.global_id_tag x = some g → mbP.global_id_tag y = some g → x = y)
    (hinjQ : ∀ x y g, mbQ.global_id_tag x = some g → mbQ.global_id_tag y = some g → x = y)
    (hpi0 : pi ≠ 0) :
    ∃ ri rj, rowsP[a]? = some ri ∧ rowsQ[b]? = some rj ∧
      entries_at ri gj =
        [-(get_equivalent_perm ki kj) / get_centroid_dist ci cj] ∧
      (pj ≠ 0 →
        entries_at rj gi =
          [-(get_equivalent_perm ki kj) / get_centroid_dist ci cj] ∧
        entries_at ri gj = entries_at rj gi) ∧
      (pj = 0 → entries_at rj gi = []) := by
  obtain ⟨ri, hri, hrowi⟩ := emitted_rows_getElem mbP elemsP rowsP hrunP a ha
  obtain ⟨rj, hrj, hrowj⟩ := emitted_rows_getElem mbQ elemsQ rowsQ hrunQ b hb
  have hi_entry := row_entries_at_neighbour mbP elemsP[a] ri hrowi gi ci ki pi adjI
    hPi.1 hPi.2.1 hPi.2.2 hpi hadjI hpi0 hndI hinjP jP hjmem hij gj cj kj
    hPj.1 hPj.2.1 hPj.2.2
  refine ⟨ri, rj, hri, hrj, hi_entry, ?_, ?_⟩
  · intro hpj0
    have hj_entry := row_entries_at_neighbour mbQ elemsQ[b] rj hrowj gj cj kj pj adjJ
      hQj.1 hQj.2.1 hQj.2.2 hpj hadjJ hpj0 hndJ hinjQ iQ himem hji gi ci ki
      hQi.1 hQi.2.1 hQi.2.2
    have hsymm : -(get_equivalent_perm kj ki) / get_centroid_dist cj ci
        = -(get_equivalent_perm ki kj) / get_centroid_dist ci cj := by
      rw [get_equivalent_perm_comm kj ki, get_centroid_dist_comm cj ci]
    rw [hsymm] at hj_entry
    exact ⟨hj_entry, hi_entry.trans hj_entry.symm⟩
  · intro hpj0
    subst hpj0
    obtain ⟨adj1, c1, k1, p1, gid1, ns, -, -, -, hp1, hg1, -, hrdef⟩ :=
      row_of_some mbQ elemsQ[b] rj hrowj
    rw [hpj] at hp1
    rw [hQj.1] at hg1
    cases hp1
    cases hg1
    have hgne : ¬ gj = gi := by
      intro he
      apply hji
      exact hinjQ elemsQ[b] iQ gj hQj.1 (he ▸ hQi.1)
    rw [hrdef]
    simp [entries_at, element_row, hgne]

/-- Two flux cells with equal mutual coefficients, and Scenario A, where row 1
has no entry at column 0. -/
theorem flux_reciprocity_witness :
    (emitted_rows two_flux_cells [1, 2] = some two_flux_cells_expected ∧
      two_flux_cells.dirichlet_tag 1 = some 5 ∧ two_flux_cells.dirichlet_tag 2 = some 7 ∧
      (5 : ℚ) ≠ 0 ∧ (7 : ℚ) ≠ 0 ∧
      ∃ ri rj, two_flux_cells_expected[0]? = some ri ∧
        two_flux_cells_expected[1]? = some rj ∧
        entries_at ri 1 =
          [-(get_equivalent_perm 2 4) / get_centroid_dist ![0, 0, 0] ![1, 0, 0]] ∧
        entries_at rj 0 =
          [-(get_equivalent_perm 2 4) / get_centroid_dist ![0, 0, 0] ![1, 0, 0]]) ∧
    (emitted_rows scenario_A [1, 2] = some scenario_A_expected ∧
      scenario_A.dirichlet_tag 1 = some 5 ∧ scenario_A.dirichlet_tag 2 = some 0 ∧
      ∃ ri rj, scenario_A_expected[0]? = some ri ∧ scenario_A_expected[1]? = some rj ∧
        entries_at ri 1 =
          [-(get_equivalent_perm 2 4) / get_centroid_dist ![0, 0, 0] ![1, 0, 0]] ∧
        entries_at rj 0 = []) := by
  refine ⟨⟨two_flux_cells_rows, rfl, rfl, by norm_num, by norm_num, ?_⟩,
    ⟨scenario_A_rows, rfl, rfl, ?_⟩⟩
  · obtain ⟨ri, rj, h1, h2, h3, h4, -⟩ :=
      flux_reciprocity two_flux_cells two_flux_cells [1, 2] [1, 2]
        two_flux_cells_expected two_flux_cells_expected two_flux_cells_rows
        two_flux_cells_rows 0 1 (by decide) (by decide) 2 1 0 1 ![0, 0, 0] ![1, 0, 0]
        2 4 5 7 [2] [1] ⟨rfl, rfl, rfl⟩ ⟨rfl, rfl, rfl⟩ ⟨rfl, rfl, rfl⟩ ⟨rfl, rfl, rfl⟩
        rfl rfl rfl rfl (by simp) (by simp) (by decide) (by decide) (by simp) (by simp)
        scenario_A_gid_injective scenario_A_gid_injective (by norm_num)
    exact ⟨ri, rj, h1, h2, h3, (h4 (by norm_num)).1⟩
  · obtain ⟨ri, rj, h1, h2, h3, -, h5⟩ :=
      flux_reciprocity scenario_A scenario_A [1, 2] [1, 2]
        scenario_A_expected scenario_A_expected scenario_A_rows
        scenario_A_rows 0 1 (by decide) (by decide) 2 1 0 1 ![0, 0, 0] ![1, 0, 0]
        2 4 5 0 [2] [1] ⟨rfl, rfl, rfl⟩ ⟨rfl, rfl, rfl⟩ ⟨rfl, rfl, rfl⟩ ⟨rfl, rfl, rfl⟩
        rfl rfl rfl rfl (by simp) (by simp) (by decide) (by decide) (by simp) (by simp)
        scenario_A_gid_injective scenario_A_gid_injective (by norm_num)
    exact ⟨ri, rj, h1, h2, h3, h5 rfl⟩


end Presto
